import Mathlib

/-!
Shallow embedding of the `mathematics_dataset` repository (the algebra
module `mathematics_dataset/modules/algebra.py` and the dataset driver
`mathematics_dataset/generate_to_file.py`).

Random draws made by the Python code (`random.randint`, `np.random.binomial`,
`np.random.dirichlet`, `random.choice`, ...) and results of external
collaborators that are not part of this repository's sources (the `number`,
`linear_system`, `ops`, `polynomials`, `composition`, `display` and `example`
modules, and the sympy oracle) appear as explicit arguments: a function is
verified for every possible draw.  Unbounded `while True` loops are embedded
with an explicit fuel argument counting the iterations actually taken, so a
`some` result means the loop exited within that many iterations.
-/

namespace MathematicsDataset

/-! ## Data model -/

/-- Sample-args recursion budget (`composition.SampleArgs`, not under src):
the number of modules still to compose plus the remaining entropy.  Its
`peel` operation is an external collaborator, so peeled values appear as
explicit draw fields of the oracle records below. -/
structure SampleArgs where
  numModules : ℤ
  entropy : ℚ

/-- Modelled from the spec: the composition context (`composition.Context`
in `util/composition.py`, not under src) owns an ordered pool of unused
variable names (and the entities sampled so far, which the claims here never
inspect); only the name pool is represented.  `pop` takes names from the
front of the pool in order. -/
structure Context where
  pool : List String

/-- Modelled from the spec: a fresh context as created by
`composition.Context()`, holding the fixed finite pool of single-letter
variable names. -/
def Context.fresh : Context :=
  ⟨["a", "b", "c", "d", "f", "g", "h"]⟩

/-- Answer value of a generated problem: a single number, an ordered number
list (`display.NumberList`), or a rendered factored expression. -/
inductive Answer where
  | num (q : ℚ)
  | numberList (qs : List ℚ)
  | factored (e : String)
  deriving DecidableEq

/-- Modelled from the spec: a rendered problem (`example.Problem` in
`example.py`, not under src): a question string plus an answer value. -/
structure Problem where
  question : String
  answer : Answer
  deriving DecidableEq

/-- Modelled from the spec: an entity produced by a generator invoked in
sub-problem mode (`composition.Entity` in `util/composition.py`, not under
src): a computed value, a description template, a handle, and the extra
rendering field used by the linear-system generator.  The back-reference to
the owning context is not represented (the spec notes it is a back-reference,
not ownership, and no claim inspects it). -/
structure Entity where
  value : Answer
  description : String
  handle : String
  equations : String
  deriving DecidableEq

/-- Result of invoking a generator: a rendered `Problem` (top-level mode) or
an `Entity` (sub-problem mode). -/
inductive GenResult where
  | problem (p : Problem)
  | entity (e : Entity)
  deriving DecidableEq

/-- Whether a generator invocation produced a full rendered problem. -/
def GenResult.isProblem : GenResult → Bool
  | .problem _ => true
  | .entity _ => false

/-! ## Root sampling (`_sample_roots`, algebra.py lines 94-124) -/

/-- Number of repeated roots used by `_sample_roots`: the binomial draw
`numRepeatedRaw = np.random.binomial(num_roots - 1, 0.2)`, capped at
`int(num_roots / 2)` when the entropy exceeds 4 (the "slight hack" avoiding
very large coefficients). -/
def numRepeatedRoots (entropy : ℚ) (numRoots numRepeatedRaw : ℕ) : ℕ :=
  if entropy > 4 then min numRepeatedRaw (numRoots / 2) else numRepeatedRaw

/-- Embedding of `_sample_roots`.  The random draws are explicit arguments:
`numRoots` is `random.randint(2, 5)`, `numRepeatedRaw` the binomial draw,
`distinctVal i` the value sampled for the i-th distinct root (via the
external `number.non_integer_rational` or `number.integer`, each called with
its Dirichlet entropy share), and `repChoice i` selects which of the first
`numDistinct` roots the i-th repeated root copies
(`random.choice(roots[:num_distinct])`, hence taken modulo `numDistinct`). -/
def sample_roots (entropy : ℚ) (numRoots numRepeatedRaw : ℕ)
    (distinctVal : ℕ → ℚ) (repChoice : ℕ → ℕ) : List ℚ :=
  let numRepeated := numRepeatedRoots entropy numRoots numRepeatedRaw
  let numDistinct := numRoots - numRepeated
  let distinct := (List.range numDistinct).map distinctVal
  distinct ++ (List.range numRepeated).map
    (fun i => distinct.getD (repChoice i % numDistinct) 0)

/-! ## Polynomial coefficients (`_polynomial_coeffs_with_roots`, lines 127-157) -/

/-- Coefficient-wise sum of two polynomials given as ascending coefficient
lists (used to state the expansion the sympy oracle performs). -/
def addCoeffs : List ℚ → List ℚ → List ℚ
  | [], ys => ys
  | x :: xs, [] => x :: xs
  | x :: xs, y :: ys => (x + y) :: addCoeffs xs ys

/-- Coefficients of `(X - r) * p` for `p` an ascending coefficient list. -/
def mulLinear (r : ℚ) (p : List ℚ) : List ℚ :=
  addCoeffs (p.map (fun c => -r * c)) (0 :: p)

/-- Ascending coefficient list of `prod (X - root)` over the given roots:
the expansion `sympy.Poly(sympy.prod([variable - root for root in roots]))`
computes, with `all_coeffs()` reversed into ascending order as the source
does. -/
def polyFromRoots : List ℚ → List ℚ
  | [] => [1]
  | r :: rs => mulLinear r (polyFromRoots rs)

/-- Least common multiple of the denominators of a coefficient list
(`sympy.lcm([sympy.denom(coeff) for coeff in coeffs])`). -/
def lcmDenoms (coeffs : List ℚ) : ℕ :=
  coeffs.foldr (fun c a => Nat.lcm c.den a) 1

/-- First nonzero draw of the scale-resampling loop in
`_polynomial_coeffs_with_roots`; `fuel` counts the iterations the unbounded
`while True` loop takes, `i` the index of the next draw of
`number.integer_or_rational(scale_entropy, signed=True)`. -/
def firstNonzero (draws : ℕ → ℚ) : ℕ → ℕ → Option ℚ
  | 0, _ => none
  | fuel + 1, i => if draws i ≠ 0 then some (draws i) else firstNonzero draws fuel (i + 1)

/-- Scale factor chosen by `_polynomial_coeffs_with_roots`: resampled until
nonzero when `scaleEntropy > 0`, and the constant 1 otherwise. -/
def chooseScale (scaleEntropy : ℚ) (draws : ℕ → ℚ) (fuel : ℕ) : Option ℚ :=
  if scaleEntropy > 0 then firstNonzero draws fuel 0 else some 1

/-- Embedding of `_polynomial_coeffs_with_roots`: expand the root product,
pick the scale, and return `[coeff * scale * lcm for coeff in coeffs]`. -/
def polynomial_coeffs_with_roots (roots : List ℚ) (scaleEntropy : ℚ)
    (draws : ℕ → ℚ) (fuel : ℕ) : Option (List ℚ) :=
  let coeffs := polyFromRoots roots
  let lcm := lcmDenoms coeffs
  match chooseScale scaleEntropy draws fuel with
  | none => none
  | some scale => some (coeffs.map (fun c => c * scale * (lcm : ℚ)))

/-! ## Root questions (`polynomial_roots`, algebra.py lines 160-220) -/

/-- Sorted distinct values of a list, ascending: the embedding of
`sorted(list(sympy.FiniteSet(*roots)))`. -/
def sortedDistinct (roots : List ℚ) : List ℚ :=
  List.insertionSort (· ≤ ·) roots.dedup

/-- Question templates of the explicit-roots branch of `polynomial_roots`,
as functions of the rendered equality and the variable. -/
def rootsTemplates : List (String → String → String) :=
  [fun eq v => "Let " ++ eq ++ ". What is " ++ v ++ "?",
   fun eq v => "Let " ++ eq ++ ". Calculate " ++ v ++ ".",
   fun eq v => "Suppose " ++ eq ++ ". What is " ++ v ++ "?",
   fun eq v => "Suppose " ++ eq ++ ". Calculate " ++ v ++ ".",
   fun eq v => "What is " ++ v ++ " in " ++ eq ++ "?",
   fun eq v => "Solve " ++ eq ++ " for " ++ v ++ ".",
   fun eq v => "Find " ++ v ++ " such that " ++ eq ++ ".",
   fun eq v => "Find " ++ v ++ ", given that " ++ eq ++ ".",
   fun eq v => "Determine " ++ v ++ " so that " ++ eq ++ ".",
   fun eq v => "Determine " ++ v ++ ", given that " ++ eq ++ ".",
   fun eq _ => "Solve " ++ eq ++ "."]

/-- Uniform template choice (`random.choice`) with the drawn index reduced
modulo the number of templates, applied to the equality and variable. -/
def renderRootsTemplate (idx : ℕ) (eq v : String) : String :=
  (rootsTemplates.getD (idx % rootsTemplates.length) (fun _ _ => "")) eq v

/-- Modelled from the spec: the single entity `context.sample(sample_args,
[composition.Polynomial(coeffs)])` returns (the composition machinery is in
`util/composition.py`, not under src).  `hasExpression` tells whether the
polynomial was materialized inline as an expression; otherwise the entity
exposes a function handle to apply to a fresh variable. -/
structure PolyEntity where
  hasExpression : Bool
  expression : String
  polynomialVariable : String
  handleName : String

/-- Random draws and external-collaborator results consumed by one call of
`polynomial_roots`; each field mirrors one call site in the source:
`peelEntropy`/`peeledArgs` are the result of `sample_args.peel()`,
`numRoots`, `numRepeatedRaw`, `distinctVal`, `repChoice` feed
`_sample_roots`, `scaleDraws` feeds the scale loop, `entity` is the
composed polynomial entity, `askRoots` is `random.choice([False, True])`,
`templateIdx` the template draw, and `factor` the sympy factoring oracle
applied to `polynomials.coefficients_to_polynomial(coeffs, variable)`. -/
structure PolyRand where
  peelEntropy : ℚ
  peeledArgs : SampleArgs
  numRoots : ℕ
  numRepeatedRaw : ℕ
  distinctVal : ℕ → ℚ
  repChoice : ℕ → ℕ
  scaleDraws : ℕ → ℚ
  entity : PolyEntity
  askRoots : Bool
  templateIdx : ℕ
  factor : List ℚ → String → String

/-- Scale entropy of a `polynomial_roots` call:
`scale_entropy = min(entropy / 2, 1)`. -/
def polyScaleEntropy (r : PolyRand) : ℚ :=
  min (r.peelEntropy / 2) 1

/-- Roots sampled by a `polynomial_roots` call:
`_sample_roots(entropy - scale_entropy)`. -/
def polyRootsSampled (r : PolyRand) : List ℚ :=
  sample_roots (r.peelEntropy - polyScaleEntropy r) r.numRoots r.numRepeatedRaw
    r.distinctVal r.repChoice

/-- Variable used in the rendered question of `polynomial_roots`: the
polynomial entity's own variable when it has an expression, else a fresh
name popped from the context (the first name of the pool). -/
def polyRootsVarName (context : Option Context) (r : PolyRand) : String :=
  if r.entity.hasExpression then r.entity.polynomialVariable
  else (context.getD Context.fresh).pool.getD 0 "x"

/-- Embedding of `polynomial_roots` (algebra.py lines 160-220).  The `value`
argument is deleted unused by the source; `sample_args` is consumed by the
external `peel` and `context.sample`, whose results are fields of `r`; a
fresh context is created when `context` is `None`.  Both the explicit-roots
branch and the factoring branch return a rendered `Problem`. -/
def polynomial_roots (value : Option ℚ) (sampleArgs : SampleArgs)
    (context : Option Context) (r : PolyRand) (fuel : ℕ) : Option GenResult :=
  let solutions := sortedDistinct (polyRootsSampled r)
  match polynomial_coeffs_with_roots (polyRootsSampled r) (polyScaleEntropy r)
      r.scaleDraws fuel with
  | none => none
  | some coeffs =>
    let varName := polyRootsVarName context r
    if r.askRoots then
      let answer := if solutions.length = 1 then Answer.num (solutions.getD 0 0)
        else Answer.numberList solutions
      let equality := (if r.entity.hasExpression then r.entity.expression
        else r.entity.handleName ++ "(" ++ varName ++ ")") ++ " = 0"
      some (GenResult.problem
        ⟨renderRootsTemplate r.templateIdx equality varName, answer⟩)
    else
      let expression := if r.entity.hasExpression then r.entity.expression
        else r.entity.handleName ++ "(" ++ varName ++ ")"
      some (GenResult.problem
        ⟨"Factor " ++ expression ++ ".", Answer.factored (r.factor coeffs varName)⟩)

/-- Concrete draw record used by the witnesses: entropy 2, two equal distinct
roots both 1, no repeats, scale draw 1, an inline polynomial expression, the
explicit-roots branch, template 0. -/
def polyRand0 : PolyRand :=
  { peelEntropy := 2
    peeledArgs := ⟨2, 1⟩
    numRoots := 2
    numRepeatedRaw := 0
    distinctVal := fun _ => 1
    repChoice := fun _ => 0
    scaleDraws := fun _ => 1
    entity := ⟨true, "E", "x", "p"⟩
    askRoots := true
    templateIdx := 0
    factor := fun _ _ => "F" }

/-- Result of `polynomial_roots` at the draws of `polyRand0`: a rendered
problem whose answer is the single distinct root 1. -/
def polyResult0 : GenResult :=
  GenResult.problem ⟨renderRootsTemplate 0 ("E" ++ " = 0") "x", Answer.num 1⟩

/-! ## Linear systems (`_solve_linear_system`, algebra.py lines 223-292) -/

/-- Per-extra-solution entropies of `_solve_linear_system`:
`entropies = np.maximum(1, (entropy / 4) * np.random.dirichlet(...))`, the
Dirichlet weights given as an explicit list. -/
def extraEntropies (entropy : ℚ) (weights : List ℚ) : List ℚ :=
  weights.map (fun w => max 1 (entropy / 4 * w))

/-- Entropy handed to the linear-system oracle: the peeled entropy minus the
extra solutions' shares when extra solutions were needed, in either case
clamped from below by `entropy = max(1, entropy)`. -/
def oracleEntropy (entropy : ℚ) (extraNeeded : ℕ) (weights : List ℚ) : ℚ :=
  if 0 < extraNeeded then max 1 (entropy - (extraEntropies entropy weights).sum)
  else max 1 entropy

/-- Retry loop of `_solve_linear_system` (the `while True` at lines 252-258):
candidate system `i` is accepted as soon as `sample_args.num_modules <= 1` or
the system has numeric constants; `fuel` counts loop iterations, so a `some`
result means the loop broke within `fuel` iterations and `none` that it was
still running. -/
def findSystem (numModules : ℤ) (hasConstants : ℕ → Bool) : ℕ → ℕ → Option ℕ
  | 0, _ => none
  | fuel + 1, i =>
    if numModules ≤ 1 ∨ hasConstants i then some i
    else findSystem numModules hasConstants fuel (i + 1)

/-- Random draws and external-collaborator results consumed by one call of
`_solve_linear_system`: the peeled entropy and sample-args, the Dirichlet
weight list for `n` extra solutions, the `number.integer(entropy, True)`
sampler, the `linear_system.linear_system` oracle (equations of candidate
system `i`, given the oracle entropy), the `ops.number_constants` emptiness
test of candidate `i`, and the equation rewriting performed by
`context.sample_by_replacing_constants`. -/
structure LinRand where
  peelEntropy : ℚ
  peeledArgs : SampleArgs
  dirichlet : ℕ → List ℚ
  intDraw : ℚ → ℤ
  systems : ℚ → ℕ → List String
  hasConstants : ℕ → Bool
  replaced : List String → List String

/-- Solution list of a `_solve_linear_system` call: the pre-specified value
(in sub-problem mode) followed by the integers sampled at the clamped
per-solution entropies when `extra_solutions_needed > 0`. -/
def linSolutions (degree : ℕ) (value : Option ℤ) (r : LinRand) : List ℤ :=
  let base := (value.map (fun v => [v])).getD []
  let extraNeeded := degree - base.length
  base ++ (if 0 < extraNeeded then
    (extraEntropies r.peelEntropy (r.dirichlet extraNeeded)).map r.intDraw
  else [])

/-- Variables of a `_solve_linear_system` call: `degree` names popped from
the context's pool in order. -/
def linVariables (degree : ℕ) (ctx : Context) : List String :=
  (List.range degree).map (fun i => ctx.pool.getD i "x")

/-- Question template of the top-level mode of `_solve_linear_system`
(`random.choice` over a single template). -/
def renderLinearTemplate (eqs v : String) : String :=
  "Solve " ++ eqs ++ " for " ++ v ++ "."

/-- Embedding of `_solve_linear_system`.  `is_question` is whether the
context argument was `None`; a fresh context is created in that case.  The
designated solution index is 0 (`solution_index = 0`): the answer is
`solutions[0]` and the solved variable `variables[0]`.  In top-level mode
the call returns a rendered Problem, in sub-problem mode an Entity whose
value is the designated solution and whose handle is the solved variable. -/
def solve_linear_system (degree : ℕ) (value : Option ℤ)
    (sampleArgs : SampleArgs) (context : Option Context) (r : LinRand)
    (fuel : ℕ) : Option GenResult :=
  let ctx := context.getD Context.fresh
  let solutions := linSolutions degree value r
  let extraNeeded := degree - ((value.map (fun v => [v])).getD []).length
  let finalEntropy := oracleEntropy r.peelEntropy extraNeeded
    (r.dirichlet extraNeeded)
  let vars := linVariables degree ctx
  match findSystem r.peeledArgs.numModules r.hasConstants fuel 0 with
  | none => none
  | some i =>
    let equations := r.replaced (r.systems finalEntropy i)
    let varName := vars.getD 0 "x"
    let answer := solutions.getD 0 0
    let eqs := String.intercalate ", " equations
    if context.isNone then
      some (GenResult.problem
        ⟨renderLinearTemplate eqs varName, Answer.num (answer : ℚ)⟩)
    else
      some (GenResult.entity
        ⟨Answer.num (answer : ℚ), "Suppose {equations}.", varName, eqs⟩)

/-- Embedding of `solve_linear_1d`: the degree-1 wrapper around
`_solve_linear_system`, registered with compatibility tag
`composition.module(number.is_integer)`. -/
def solve_linear_1d (value : Option ℤ) (sampleArgs : SampleArgs)
    (context : Option Context) (r : LinRand) (fuel : ℕ) : Option GenResult :=
  solve_linear_system 1 value sampleArgs context r fuel

/-- Embedding of `solve_linear_2d`: the degree-2 wrapper around
`_solve_linear_system`, registered with compatibility tag
`composition.module(number.is_integer)`. -/
def solve_linear_2d (value : Option ℤ) (sampleArgs : SampleArgs)
    (context : Option Context) (r : LinRand) (fuel : ℕ) : Option GenResult :=
  solve_linear_system 2 value sampleArgs context r fuel

/-- Concrete draw record used by the linear-system witnesses: peeled budget
with one remaining module, a single candidate system `x = 5` with constants
present, identity constant replacement. -/
def linRand0 : LinRand :=
  { peelEntropy := 2
    peeledArgs := ⟨1, 1⟩
    dirichlet := fun _ => []
    intDraw := fun _ => 0
    systems := fun _ _ => ["x = 5"]
    hasConstants := fun _ => true
    replaced := fun eqs => eqs }

/-- Result of `_solve_linear_system` at the draws of `linRand0` in
sub-problem mode with pre-specified solution 5: the entity wrapping the
system, with the solution as value and the solved variable as handle. -/
def linResult0 : GenResult :=
  GenResult.entity ⟨Answer.num 5, "Suppose {equations}.", "a",
    String.intercalate ", " ["x = 5"]⟩

/-! ## Polynomial sequences (`_PolynomialSequence` and the sequence modules,
algebra.py lines 295-378) -/

/-- Embedding of `_PolynomialSequence.min_num_terms`: the minimum number of
terms needed to identify a sequence of the given degree under a human-like
prior, `self._degree + 2`. -/
def min_num_terms (degree : ℕ) : ℕ :=
  degree + 2

/-- Terms displayed by `sequence_next_term` and `sequence_nth_term`:
`[sequence.term(n + 1) for n in range(num_terms)]`, where `term` is the
evaluation of the externally sampled polynomial
(`polynomials.sample_with_small_evaluation`) and `num_terms` is the draw
`random.randint(min_num_terms, min_num_terms + 3)`. -/
def sequenceSample (term : ℕ → ℚ) (numTerms : ℕ) : List ℚ :=
  (List.range numTerms).map (fun n => term (n + 1))

/-! ## Dataset driver (`generate_to_file.py` main) -/

/-- Accumulator loop of the json branch of `generate_to_file.main` (lines
64-84): `dataset_list` is created once before the loop over regimes and never
reset; for each (regime, module) pair in processing order the `per_module`
freshly sampled problems are appended to it and the whole accumulated list is
dumped to that module's file.  Given the per-module problem lists, returns
the contents of each file in the order written. -/
def jsonFileDumps (acc : List String) : List (List String) → List (List String)
  | [] => []
  | ps :: rest => (acc ++ ps) :: jsonFileDumps (acc ++ ps) rest

/-- Contents of the json files written by `main` with `save_format = json`,
one entry per (regime, module) pair in processing order, starting from the
empty `dataset_list = []`. -/
def mainJsonFiles (moduleProblems : List (List String)) : List (List String) :=
  jsonFileDumps [] moduleProblems

/-- Python value in the shallow model of `main`: only the shapes the jsonl
branch can touch. -/
inductive PyVal where
  | str (s : String)
  | intVal (n : ℤ)
  | dict (entries : List (String × String))
  | listVal (entries : List String)
  | obj
  deriving DecidableEq

/-- Python name lookup in `main`: the latest local assignment wins, and a
name never assigned (and with no module-level global of that name, as is the
case for `dataset_dict` in generate_to_file.py) raises a NameError. -/
def lookupName (env : List (String × PyVal)) (x : String) :
    Except String PyVal :=
  match env.find? (fun p => p.1 == x) with
  | some p => Except.ok p.2
  | none => Except.error ("NameError: name " ++ x ++ " is not defined")

/-- Local environment of `main` at the first `dataset_dict.update` call of
the jsonl branch: every name the function has assigned by then (source lines
55-89) with a representative value — `dataset_dict` is not among them, and
the loop binds `problem` just before the lookup. -/
def mainJsonlEnv (perModule : ℕ) : List (String × PyVal) :=
  [("text_file", PyVal.obj),
   ("path", PyVal.str "module.jsonl"),
   ("module", PyVal.obj),
   ("module_name", PyVal.str "module"),
   ("per_module", PyVal.intVal perModule),
   ("regime_dir", PyVal.str "dir"),
   ("regime", PyVal.str "train-easy"),
   ("flat_modules", PyVal.obj),
   ("dataset_list", PyVal.listVal []),
   ("output_dir", PyVal.str "out"),
   ("save_format", PyVal.str "jsonl")]

/-- Update of one key of a Python dict: overwrite in place when present,
append otherwise. -/
def updateEntry (d : List (String × String)) (k v : String) :
    List (String × String) :=
  if d.any (fun p => p.1 == k) then
    d.map (fun p => if p.1 == k then (k, v) else p)
  else d ++ [(k, v)]

/-- Semantics of `dict.update` with several keys. -/
def updateDict (d kvs : List (String × String)) : List (String × String) :=
  kvs.foldl (fun acc kv => updateEntry acc kv.1 kv.2) d

/-- Rendering of `json.dump` for a string-valued dict, one jsonl line. -/
def dumpJson (d : List (String × String)) : String :=
  "\x7b" ++ String.intercalate ", "
    (d.map (fun kv => "\"" ++ kv.1 ++ "\": \"" ++ kv.2 ++ "\"")) ++ "\x7d"

/-- Embedding of the jsonl branch inner loop of `generate_to_file.main`
(lines 87-97): for each of `per_module` iterations it samples a problem
(`gen k` giving the question/answer pair), binds `problem`, then evaluates
`dataset_dict.update({...})` — which first looks up the name `dataset_dict`
— and would dump one json line per problem.  Returns the lines written to
the already-opened file together with the exception that escaped, if any. -/
def jsonlLoop (gen : ℕ → String × String) :
    ℕ → ℕ → List (String × PyVal) → List String × Option String
  | 0, _, _ => ([], none)
  | n + 1, k, env =>
    let qa := gen k
    let env1 := ("problem", PyVal.str qa.1) :: env
    match lookupName env1 "dataset_dict" with
    | Except.error e => ([], some e)
    | Except.ok v =>
      match v with
      | PyVal.dict d =>
        let d1 := updateDict d [("question", qa.1), ("answer", qa.2)]
        let rest := jsonlLoop gen n (k + 1) (("dataset_dict", PyVal.dict d1) :: env1)
        (dumpJson d1 :: rest.1, rest.2)
      | _ => ([], some "AttributeError: update")

end MathematicsDataset

namespace MathematicsDataset

/-! ## Helper lemmas -/

/-- Helper: the length of `sample_roots` is always exactly `numRoots` when the
repeated-root count does not exceed `numRoots`. -/
theorem sample_roots_length (entropy : ℚ) (numRoots numRepeatedRaw : ℕ)
    (distinctVal : ℕ → ℚ) (repChoice : ℕ → ℕ)
    (h : numRepeatedRoots entropy numRoots numRepeatedRaw ≤ numRoots) :
    (sample_roots entropy numRoots numRepeatedRaw distinctVal repChoice).length
      = numRoots := by
  simp only [sample_roots, List.length_append, List.length_map, List.length_range]
  omega

/-- Helper: the cap never increases the binomial draw. -/
theorem numRepeatedRoots_le_raw (entropy : ℚ) (numRoots numRepeatedRaw : ℕ) :
    numRepeatedRoots entropy numRoots numRepeatedRaw ≤ numRepeatedRaw := by
  unfold numRepeatedRoots
  split
  · exact Nat.min_le_left _ _
  · exact Nat.le_refl _

/-- Claim C4: every call of `_sample_roots` (hence every `polynomial_roots`
call) produces between 2 and 5 roots in total, distinct plus repeated, given
that `random.randint(2, 5)` returns a value in `[2, 5]` and the binomial draw
is at most `num_roots - 1`; and when the root-sampling entropy exceeds 4 the
number of repeated roots actually used is capped at `num_roots / 2`. -/
theorem sample_roots_count (entropy : ℚ) (numRoots numRepeatedRaw : ℕ)
    (distinctVal : ℕ → ℚ) (repChoice : ℕ → ℕ)
    (h2 : 2 ≤ numRoots) (h5 : numRoots ≤ 5)
    (hraw : numRepeatedRaw ≤ numRoots - 1) :
    (2 ≤ (sample_roots entropy numRoots numRepeatedRaw distinctVal repChoice).length ∧
      (sample_roots entropy numRoots numRepeatedRaw distinctVal repChoice).length ≤ 5) ∧
    (entropy > 4 →
      numRepeatedRoots entropy numRoots numRepeatedRaw ≤ numRoots / 2) := by
  have hle := numRepeatedRoots_le_raw entropy numRoots numRepeatedRaw
  have hlen := sample_roots_length entropy numRoots numRepeatedRaw distinctVal
    repChoice (by omega)
  constructor
  · omega
  · intro he
    simp only [numRepeatedRoots, if_pos he]
    exact Nat.min_le_right _ _

/-- Witness for claim C4 at a concrete draw: 3 roots requested, one binomial
repeat, entropy 5. -/
theorem sample_roots_count_witness :
    ((2 ≤ (3:ℕ) ∧ (3:ℕ) ≤ 5 ∧ (1:ℕ) ≤ 3 - 1) ∧
      ((2 ≤ (sample_roots 5 3 1 (fun i => (i : ℚ)) (fun _ => 0)).length ∧
        (sample_roots 5 3 1 (fun i => (i : ℚ)) (fun _ => 0)).length ≤ 5) ∧
       ((5:ℚ) > 4 → numRepeatedRoots 5 3 1 ≤ 3 / 2))) :=
  ⟨by refine ⟨by decide, by decide, by decide⟩,
   sample_roots_count 5 3 1 (fun i => (i : ℚ)) (fun _ => 0)
     (by decide) (by decide) (by decide)⟩

/-- Helper: `firstNonzero` only ever returns a nonzero draw. -/
theorem firstNonzero_ne_zero (draws : ℕ → ℚ) :
    ∀ fuel i s, firstNonzero draws fuel i = some s → s ≠ 0 := by
  intro fuel
  induction fuel with
  | zero => intro i s h; simp [firstNonzero] at h
  | succ n ih =>
    intro i s h
    by_cases hz : draws i ≠ 0
    · simp only [firstNonzero, if_pos hz] at h
      cases h
      exact hz
    · simp only [firstNonzero, if_neg hz] at h
      exact ih (i + 1) s h

/-- Helper: the denominator lcm of a coefficient list is never zero. -/
theorem lcmDenoms_ne_zero (coeffs : List ℚ) : lcmDenoms coeffs ≠ 0 := by
  induction coeffs with
  | nil => simp [lcmDenoms]
  | cons c cs ih =>
    simpa [lcmDenoms] using Nat.lcm_ne_zero c.den_nz ih

/-- Claim C7: whenever `_polynomial_coeffs_with_roots` returns, the scale it
used is nonzero — resampled until nonzero when `scale_entropy > 0`, the
identity 1 when `scale_entropy = 0` — and the returned coefficient list is the
expanded root polynomial scaled coefficient-wise by the nonzero factor
`scale * lcm`; a zero scale is never used and never propagated as an error. -/
theorem polynomial_coeffs_nonzero_scale (roots : List ℚ) (scaleEntropy : ℚ)
    (draws : ℕ → ℚ) (fuel : ℕ) (cs : List ℚ)
    (h : polynomial_coeffs_with_roots roots scaleEntropy draws fuel = some cs) :
    ∃ scale : ℚ, chooseScale scaleEntropy draws fuel = some scale ∧
      scale ≠ 0 ∧
      scale * (lcmDenoms (polyFromRoots roots) : ℚ) ≠ 0 ∧
      cs = (polyFromRoots roots).map
        (fun c => c * scale * (lcmDenoms (polyFromRoots roots) : ℚ)) ∧
      (scaleEntropy = 0 → scale = 1) := by
  unfold polynomial_coeffs_with_roots at h
  cases hc : chooseScale scaleEntropy draws fuel with
  | none => rw [hc] at h; cases h
  | some scale =>
    rw [hc] at h
    refine ⟨scale, rfl, ?_, ?_, ?_, ?_⟩
    · unfold chooseScale at hc
      by_cases hpos : scaleEntropy > 0
      · rw [if_pos hpos] at hc
        exact firstNonzero_ne_zero draws fuel 0 scale hc
      · rw [if_neg hpos] at hc
        cases hc
        exact one_ne_zero
    · have hl : (lcmDenoms (polyFromRoots roots) : ℚ) ≠ 0 := by
        exact_mod_cast lcmDenoms_ne_zero (polyFromRoots roots)
      have hs : scale ≠ 0 := by
        unfold chooseScale at hc
        by_cases hpos : scaleEntropy > 0
        · rw [if_pos hpos] at hc
          exact firstNonzero_ne_zero draws fuel 0 scale hc
        · rw [if_neg hpos] at hc
          cases hc
          exact one_ne_zero
      exact mul_ne_zero hs hl
    · cases h; rfl
    · intro hze
      unfold chooseScale at hc
      rw [if_neg (by rw [hze]; exact lt_irrefl 0)] at hc
      cases hc
      rfl

/-- Helper: `sortedDistinct` is sorted ascending. -/
theorem sortedDistinct_sorted (l : List ℚ) :
    (sortedDistinct l).Sorted (· ≤ ·) :=
  List.sorted_insertionSort _ _

/-- Helper: `sortedDistinct` has no duplicates. -/
theorem sortedDistinct_nodup (l : List ℚ) : (sortedDistinct l).Nodup :=
  (List.perm_insertionSort _ _).nodup_iff.mpr l.nodup_dedup

/-- Helper: `sortedDistinct` has exactly the members of the input list. -/
theorem sortedDistinct_mem (l : List ℚ) (x : ℚ) :
    x ∈ sortedDistinct l ↔ x ∈ l :=
  ((List.perm_insertionSort _ _).mem_iff).trans List.mem_dedup

/-- Helper: the roots sampled at the draws of `polyRand0` are `[1, 1]`. -/
theorem polyRand0_roots : polyRootsSampled polyRand0 = [1, 1] := by
  simp [polyRootsSampled, sample_roots, numRepeatedRoots, polyRand0,
    List.range_succ]

/-- Helper: evaluation of `polynomial_roots` at the draws of `polyRand0`,
invoked in sub-problem mode (a non-None context). -/
theorem polyRand0_eval :
    polynomial_roots none ⟨2, 1⟩ (some Context.fresh) polyRand0 1
      = some polyResult0 := by
  have hsol : sortedDistinct (polyRootsSampled polyRand0) = [1] := by
    rw [polyRand0_roots]; decide
  have hscale : chooseScale (polyScaleEntropy polyRand0) polyRand0.scaleDraws 1
      = some 1 := by
    have h1 : polyScaleEntropy polyRand0 = 1 := by
      norm_num [polyScaleEntropy, polyRand0]
    rw [h1]; decide
  have hcoeffs : polynomial_coeffs_with_roots (polyRootsSampled polyRand0)
      (polyScaleEntropy polyRand0) polyRand0.scaleDraws 1
      = some ((polyFromRoots (polyRootsSampled polyRand0)).map
          (fun c => c * 1 * (lcmDenoms (polyFromRoots (polyRootsSampled polyRand0)) : ℚ))) := by
    unfold polynomial_coeffs_with_roots
    rw [hscale]
  simp only [polynomial_roots, hcoeffs, hsol]
  simp [polyRand0, polyResult0, polyRootsVarName]

/-- Witness for claim C7 at concrete input: roots 2 and -3, scale entropy 1,
every scale draw equal to 2, one loop iteration. -/
theorem polynomial_coeffs_nonzero_scale_witness :
    ∃ scale : ℚ, chooseScale 1 (fun _ => 2) 1 = some scale ∧
      scale ≠ 0 ∧
      scale * (lcmDenoms (polyFromRoots [2, -3]) : ℚ) ≠ 0 ∧
      ((polyFromRoots [2, -3]).map
          (fun c => c * 2 * (lcmDenoms (polyFromRoots [2, -3]) : ℚ)))
        = (polyFromRoots [2, -3]).map
            (fun c => c * scale * (lcmDenoms (polyFromRoots [2, -3]) : ℚ)) ∧
      ((1:ℚ) = 0 → scale = 1) :=
  polynomial_coeffs_nonzero_scale [2, -3] 1 (fun _ => 2) 1
    ((polyFromRoots [2, -3]).map
      (fun c => c * 2 * (lcmDenoms (polyFromRoots [2, -3]) : ℚ))) rfl

/-- Claim C2 counterexample: invoked with a non-None context (sub-problem
mode) at the concrete draws of `polyRand0`, `polynomial_roots` returns a
rendered Problem, not an Entity. -/
theorem polynomial_roots_composed_problem_cex :
    (polynomial_roots none ⟨2, 1⟩ (some Context.fresh) polyRand0 1).map
      GenResult.isProblem = some true := by
  rw [polyRand0_eval]
  rfl

/-- Claim C2, amended: `polynomial_roots` always returns a rendered Problem,
whether the context is None or not; unlike the linear-system generators it
has no entity-producer mode (its only Entity use is the internal polynomial
entity it composes for its own question). -/
theorem polynomial_roots_always_problem (value : Option ℚ)
    (sampleArgs : SampleArgs) (context : Option Context) (r : PolyRand)
    (fuel : ℕ) (result : GenResult)
    (h : polynomial_roots value sampleArgs context r fuel = some result) :
    result.isProblem = true := by
  unfold polynomial_roots at h
  cases hc : polynomial_coeffs_with_roots (polyRootsSampled r)
      (polyScaleEntropy r) r.scaleDraws fuel with
  | none => rw [hc] at h; cases h
  | some coeffs =>
    rw [hc] at h
    by_cases ha : r.askRoots
    · simp only [if_pos ha] at h
      cases h
      rfl
    · simp only [if_neg ha] at h
      cases h
      rfl

/-- Witness for the amended claim C2 at the concrete draws of `polyRand0`. -/
theorem polynomial_roots_always_problem_witness :
    polyResult0.isProblem = true :=
  polynomial_roots_always_problem none ⟨2, 1⟩ (some Context.fresh) polyRand0 1
    polyResult0 polyRand0_eval

/-- Claim C5: whenever `polynomial_roots` returns, the sorted distinct root
list it computes is ascending, duplicate-free, and holds exactly the sampled
roots' values; in the explicit-roots branch the answer is that list (as a
single number when only one distinct root exists), and in the factoring
branch the answer is the factoring oracle applied to the sampled coefficient
list. -/
theorem polynomial_roots_answers (value : Option ℚ) (sampleArgs : SampleArgs)
    (context : Option Context) (r : PolyRand) (fuel : ℕ) (result : GenResult)
    (h : polynomial_roots value sampleArgs context r fuel = some result) :
    (sortedDistinct (polyRootsSampled r)).Sorted (· ≤ ·) ∧
    (sortedDistinct (polyRootsSampled r)).Nodup ∧
    (∀ x : ℚ, x ∈ sortedDistinct (polyRootsSampled r) ↔ x ∈ polyRootsSampled r) ∧
    (r.askRoots = true → ∃ p, result = GenResult.problem p ∧
      p.answer = (if (sortedDistinct (polyRootsSampled r)).length = 1
        then Answer.num ((sortedDistinct (polyRootsSampled r)).getD 0 0)
        else Answer.numberList (sortedDistinct (polyRootsSampled r)))) ∧
    (r.askRoots = false → ∃ p cs, result = GenResult.problem p ∧
      polynomial_coeffs_with_roots (polyRootsSampled r) (polyScaleEntropy r)
        r.scaleDraws fuel = some cs ∧
      p.answer = Answer.factored (r.factor cs (polyRootsVarName context r))) := by
  refine ⟨sortedDistinct_sorted _, sortedDistinct_nodup _,
    fun x => sortedDistinct_mem _ x, ?_, ?_⟩
  · intro ha
    unfold polynomial_roots at h
    cases hc : polynomial_coeffs_with_roots (polyRootsSampled r)
        (polyScaleEntropy r) r.scaleDraws fuel with
    | none => rw [hc] at h; cases h
    | some coeffs =>
      rw [hc] at h
      simp only [ha, eq_self_iff_true, if_true, Option.some.injEq] at h
      exact ⟨_, h.symm, rfl⟩
  · intro ha
    unfold polynomial_roots at h
    cases hc : polynomial_coeffs_with_roots (polyRootsSampled r)
        (polyScaleEntropy r) r.scaleDraws fuel with
    | none => rw [hc] at h; cases h
    | some coeffs =>
      rw [hc] at h
      simp only [ha, Bool.false_eq_true, if_false, Option.some.injEq] at h
      exact ⟨_, coeffs, h.symm, rfl, rfl⟩

/-- Witness for claim C5 at the concrete draws of `polyRand0` (explicit-roots
branch, single distinct root). -/
theorem polynomial_roots_answers_witness :
    (sortedDistinct (polyRootsSampled polyRand0)).Sorted (· ≤ ·) ∧
    (sortedDistinct (polyRootsSampled polyRand0)).Nodup ∧
    (∀ x : ℚ, x ∈ sortedDistinct (polyRootsSampled polyRand0) ↔
      x ∈ polyRootsSampled polyRand0) ∧
    (polyRand0.askRoots = true → ∃ p, polyResult0 = GenResult.problem p ∧
      p.answer = (if (sortedDistinct (polyRootsSampled polyRand0)).length = 1
        then Answer.num ((sortedDistinct (polyRootsSampled polyRand0)).getD 0 0)
        else Answer.numberList (sortedDistinct (polyRootsSampled polyRand0)))) ∧
    (polyRand0.askRoots = false → ∃ p cs, polyResult0 = GenResult.problem p ∧
      polynomial_coeffs_with_roots (polyRootsSampled polyRand0)
        (polyScaleEntropy polyRand0) polyRand0.scaleDraws 1 = some cs ∧
      p.answer = Answer.factored
        (polyRand0.factor cs (polyRootsVarName (some Context.fresh) polyRand0))) :=
  polynomial_roots_answers none ⟨2, 1⟩ (some Context.fresh) polyRand0 1
    polyResult0 polyRand0_eval

/-- Claim C1: `_solve_linear_system` (hence `solve_linear_1d` and
`solve_linear_2d`, which instantiate `degree` to 1 and 2) returns a rendered
Problem when the context argument is None, and when a non-None context is
supplied it returns an Entity whose value is the designated solution
(`solutions[solution_index]` with `solution_index = 0`) and whose handle is
the solved variable (`variables[solution_index]`). -/
theorem solve_linear_system_mode (degree : ℕ) (value : Option ℤ)
    (sampleArgs : SampleArgs) (context : Option Context) (r : LinRand)
    (fuel : ℕ) (result : GenResult)
    (h : solve_linear_system degree value sampleArgs context r fuel
      = some result) :
    (context = none → ∃ p, result = GenResult.problem p) ∧
    (∀ c, context = some c → ∃ e, result = GenResult.entity e ∧
      e.value = Answer.num (((linSolutions degree value r).getD 0 0 : ℤ) : ℚ) ∧
      e.handle = (linVariables degree c).getD 0 "x") := by
  unfold solve_linear_system at h
  cases hf : findSystem r.peeledArgs.numModules r.hasConstants fuel 0 with
  | none => rw [hf] at h; cases h
  | some i =>
    rw [hf] at h
    cases context with
    | none =>
      simp only [Option.getD_none, Option.isNone_none, if_true,
        Option.some.injEq] at h
      refine ⟨fun _ => ⟨_, h.symm⟩, ?_⟩
      intro c hc
      cases hc
    | some c =>
      simp only [Option.getD_some, Option.isNone_some, Bool.false_eq_true,
        if_false, Option.some.injEq] at h
      constructor
      · intro hc
        cases hc
      · intro c' hc'
        injection hc' with hcc
        subst hcc
        exact ⟨_, h.symm, rfl, rfl⟩

/-- Helper: evaluation of `_solve_linear_system` at the draws of `linRand0`,
invoked in sub-problem mode with pre-specified solution 5. -/
theorem linRand0_eval :
    solve_linear_system 1 (some 5) ⟨1, 1⟩ (some Context.fresh) linRand0 1
      = some linResult0 := by
  have hf : findSystem linRand0.peeledArgs.numModules linRand0.hasConstants 1 0
      = some 0 := by decide
  unfold solve_linear_system
  rw [hf]
  simp [linRand0, linResult0, linSolutions, linVariables, Context.fresh,
    extraEntropies, List.range_succ]

/-- Witness for claim C1 at the concrete draws of `linRand0`, in sub-problem
mode with pre-specified solution 5. -/
theorem solve_linear_system_mode_witness :
    ((some Context.fresh : Option Context) = none →
      ∃ p, linResult0 = GenResult.problem p) ∧
    (∀ c, (some Context.fresh : Option Context) = some c →
      ∃ e, linResult0 = GenResult.entity e ∧
      e.value = Answer.num (((linSolutions 1 (some 5) linRand0).getD 0 0 : ℤ) : ℚ) ∧
      e.handle = (linVariables 1 c).getD 0 "x") :=
  solve_linear_system_mode 1 (some 5) ⟨1, 1⟩ (some Context.fresh) linRand0 1
    linResult0 linRand0_eval

/-- Helper: when more than one module remains and no candidate system ever
has constants, the retry loop never breaks, whatever iteration bound is
imposed. -/
theorem findSystem_none_of_no_constants (numModules : ℤ)
    (hm : 1 < numModules) (hc : ℕ → Bool) (hall : ∀ j, hc j = false) :
    ∀ fuel i, findSystem numModules hc fuel i = none := by
  intro fuel
  induction fuel with
  | zero => intro i; rfl
  | succ n ih =>
    intro i
    rw [findSystem, if_neg, ih (i + 1)]
    rw [hall i]
    simp only [Bool.false_eq_true, or_false]
    omega

/-- Helper: when more than one module remains, the retry loop breaks exactly
at the first candidate system that has constants. -/
theorem findSystem_first (numModules : ℤ) (hm : 1 < numModules)
    (hc : ℕ → Bool) :
    ∀ k fuel i, hc (i + k) = true → (∀ j, j < k → hc (i + j) = false) →
      k < fuel → findSystem numModules hc fuel i = some (i + k) := by
  intro k
  induction k with
  | zero =>
    intro fuel i hk _ hfuel
    cases fuel with
    | zero => omega
    | succ n =>
      rw [findSystem, if_pos (Or.inr (show hc i = true by simpa using hk))]
      simp
  | succ k ih =>
    intro fuel i hk hbefore hfuel
    cases fuel with
    | zero => omega
    | succ n =>
      have h0 : hc i = false := by simpa using hbefore 0 (by omega)
      have hcond : ¬ (numModules ≤ 1 ∨ hc i = true) := by
        rw [h0]
        simp only [Bool.false_eq_true, or_false]
        omega
      rw [findSystem, if_neg hcond]
      have h1 : hc (i + 1 + k) = true := by
        rw [show i + 1 + k = i + (k + 1) by omega]
        exact hk
      have h2 : ∀ j, j < k → hc (i + 1 + j) = false := by
        intro j hj
        rw [show i + 1 + j = i + (j + 1) by omega]
        exact hbefore (j + 1) (by omega)
      rw [ih n (i + 1) h1 h2 (by omega)]
      congr 1
      omega

/-- Claim C3 counterexample: the retry loop of `_solve_linear_system` has no
maximum iteration cap — for no bound does the loop always break within that
many iterations when composition requires constants (module count 2): a
candidate stream with no constants anywhere keeps it running past any cap. -/
theorem find_system_no_cap_cex :
    ¬ ∃ cap : ℕ, ∀ hc : ℕ → Bool, (findSystem 2 hc cap 0).isSome := by
  rintro ⟨cap, hcap⟩
  have h := hcap (fun _ => false)
  rw [findSystem_none_of_no_constants 2 (by omega) (fun _ => false)
    (fun _ => rfl) cap 0] at h
  cases h

/-- Claim C3, amended: the retry loop is an unbounded `while True` with no
iteration cap and no failure path.  When the remaining module count is at
most 1 the first constructed system is accepted unconditionally; when it
exceeds 1 the loop reconstructs the system until the first candidate with
numeric constants, which it accepts — and if no candidate ever has
constants it never breaks, whatever bound is imposed. -/
theorem find_system_retry (numModules : ℤ) (hc : ℕ → Bool) (fuel k : ℕ) :
    (numModules ≤ 1 → 1 ≤ fuel → findSystem numModules hc fuel 0 = some 0) ∧
    (1 < numModules → hc k = true → (∀ j, j < k → hc j = false) →
      k < fuel → findSystem numModules hc fuel 0 = some k) ∧
    (1 < numModules → (∀ j, hc j = false) →
      findSystem numModules hc fuel 0 = none) := by
  refine ⟨?_, ?_, ?_⟩
  · intro hm hfuel
    cases fuel with
    | zero => omega
    | succ n => rw [findSystem, if_pos (Or.inl hm)]
  · intro hm hk hbefore hfuel
    simpa using findSystem_first numModules hm hc k fuel 0
      (by simpa using hk) (by simpa using hbefore) hfuel
  · intro hm hall
    exact findSystem_none_of_no_constants numModules hm hc hall fuel 0

/-- Witness for the amended claim C3: immediate acceptance at module count 1,
and acceptance at the first constants-bearing candidate (index 1) at module
count 2. -/
theorem find_system_retry_witness :
    findSystem 1 (fun _ => false) 1 0 = some 0 ∧
    findSystem 2 (fun i => decide (i = 1)) 3 0 = some 1 :=
  ⟨(find_system_retry 1 (fun _ => false) 1 0).1 (by decide) (by decide),
   (find_system_retry 2 (fun i => decide (i = 1)) 3 1).2.1 (by decide)
     (by decide)
     (by intro j hj; have hj0 : j = 0 := by omega
         subst hj0; decide)
     (by decide)⟩

/-- Claim C8: the per-leaf entropy clamp of `_solve_linear_system` holds
unconditionally: every extra solution value is sampled with entropy at least
1 (`np.maximum(1, ...)`), and the entropy passed to the linear-system oracle
is at least 1 (`max(1, entropy)`), whatever the peeled budget and Dirichlet
weights — the clamp may softly exceed the original budget. -/
theorem linear_entropy_clamp (entropy : ℚ) (extraNeeded : ℕ)
    (weights : List ℚ) :
    (∀ e ∈ extraEntropies entropy weights, 1 ≤ e) ∧
    1 ≤ oracleEntropy entropy extraNeeded weights := by
  constructor
  · intro e he
    simp only [extraEntropies, List.mem_map] at he
    obtain ⟨w, _, rfl⟩ := he
    exact le_max_left 1 _
  · unfold oracleEntropy
    split
    · exact le_max_left 1 _
    · exact le_max_left 1 _

/-- Witness for claim C8 at concrete input: peeled entropy 2, one extra
solution, Dirichlet weight list `[1]`; the first clamped entropy is a member
of the clamped list and is at least 1, as is the oracle entropy. -/
theorem linear_entropy_clamp_witness :
    1 ≤ (extraEntropies 2 [1]).getD 0 0 ∧ 1 ≤ oracleEntropy 2 1 [1] := by
  refine ⟨(linear_entropy_clamp 2 1 [1]).1 _ ?_, (linear_entropy_clamp 2 1 [1]).2⟩
  simp [extraEntropies]

/-- Claim C6: the number of initial terms shown by `sequence_next_term` and
`sequence_nth_term` over a polynomial sequence of degree `d` is at least
`d + 2` (the sequence's `min_num_terms`) and at most `d + 5` (up to 3
extra), given that `random.randint(min_num_terms, min_num_terms + 3)`
returns a value in its range; in particular a degree-1 sequence shows at
least 3 terms. -/
theorem sequence_terms_shown (degree numTerms : ℕ) (term : ℕ → ℚ)
    (hlo : min_num_terms degree ≤ numTerms)
    (hhi : numTerms ≤ min_num_terms degree + 3) :
    (degree + 2 ≤ (sequenceSample term numTerms).length ∧
      (sequenceSample term numTerms).length ≤ degree + 5) ∧
    (degree = 1 → 3 ≤ (sequenceSample term numTerms).length) := by
  have hlen : (sequenceSample term numTerms).length = numTerms := by
    simp [sequenceSample]
  unfold min_num_terms at hlo hhi
  exact ⟨by omega, fun h1 => by omega⟩

/-- Witness for claim C6 at a concrete draw: degree 1, the minimum draw of 3
terms. -/
theorem sequence_terms_shown_witness :
    (min_num_terms 1 ≤ 3 ∧ 3 ≤ min_num_terms 1 + 3) ∧
    ((1 + 2 ≤ (sequenceSample (fun _ => 0) 3).length ∧
      (sequenceSample (fun _ => 0) 3).length ≤ 1 + 5) ∧
    (1 = 1 → 3 ≤ (sequenceSample (fun _ => 0) 3).length)) :=
  ⟨⟨by decide, by decide⟩,
   sequence_terms_shown 1 3 (fun _ => 0) (by decide) (by decide)⟩

/-- Helper: the json branch writes one file per module. -/
theorem jsonFileDumps_length (ps : List (List String)) :
    ∀ acc, (jsonFileDumps acc ps).length = ps.length := by
  induction ps with
  | nil => intro acc; rfl
  | cons p rest ih =>
    intro acc
    simp [jsonFileDumps, ih]

/-- Helper: the file written for module `i` holds the accumulator's prior
contents, the problems of all earlier modules, then module i's problems. -/
theorem jsonFileDumps_getD (ps : List (List String)) :
    ∀ acc i, i < ps.length →
      (jsonFileDumps acc ps).getD i []
        = acc ++ (ps.take i).flatten ++ ps.getD i [] := by
  induction ps with
  | nil => intro acc i h; simp at h
  | cons p rest ih =>
    intro acc i h
    cases i with
    | zero => simp [jsonFileDumps]
    | succ j =>
      have hj : j < rest.length := by simpa using h
      simp only [jsonFileDumps, List.getD_cons_succ, List.take_succ_cons,
        List.flatten_cons]
      rw [ih (acc ++ p) j hj]
      simp [List.append_assoc]

/-- Claim C9: with `save_format = json` (the default) the accumulator list of
`generate_to_file.main` is created once and never reset, so the file written
for module `i` contains the problems of every previously processed module
and regime followed by its own `per_module` problems; the very first file
contains exactly its own problems, and any later file following a module
that produced at least one problem holds strictly more than its own. -/
theorem json_files_accumulate (moduleProblems : List (List String)) (i : ℕ)
    (hi : i < moduleProblems.length) :
    (mainJsonFiles moduleProblems).length = moduleProblems.length ∧
    (mainJsonFiles moduleProblems).getD i []
      = (moduleProblems.take i).flatten ++ moduleProblems.getD i [] ∧
    (mainJsonFiles moduleProblems).getD 0 [] = moduleProblems.getD 0 [] ∧
    (1 ≤ i → (moduleProblems.take i).flatten ≠ [] →
      (moduleProblems.getD i []).length
        < ((mainJsonFiles moduleProblems).getD i []).length) := by
  have h0 : 0 < moduleProblems.length := by omega
  have hg := jsonFileDumps_getD moduleProblems [] i hi
  have hg0 := jsonFileDumps_getD moduleProblems [] 0 h0
  simp only [List.nil_append] at hg hg0
  refine ⟨jsonFileDumps_length moduleProblems [], hg, ?_, ?_⟩
  · simpa using hg0
  · intro _ hne
    rw [mainJsonFiles, hg, List.length_append]
    have := List.length_pos.mpr hne
    omega

/-- Witness for claim C9 at a concrete run of two modules with one problem
each: the second file repeats the first module's problem. -/
theorem json_files_accumulate_witness :
    (mainJsonFiles [["q1"], ["q2"]]).length = ([["q1"], ["q2"]] : List (List String)).length ∧
    (mainJsonFiles [["q1"], ["q2"]]).getD 1 []
      = (([["q1"], ["q2"]] : List (List String)).take 1).flatten
          ++ ([["q1"], ["q2"]] : List (List String)).getD 1 [] ∧
    (mainJsonFiles [["q1"], ["q2"]]).getD 0 []
      = ([["q1"], ["q2"]] : List (List String)).getD 0 [] ∧
    (1 ≤ 1 → (([["q1"], ["q2"]] : List (List String)).take 1).flatten ≠ [] →
      (([["q1"], ["q2"]] : List (List String)).getD 1 []).length
        < ((mainJsonFiles [["q1"], ["q2"]]).getD 1 []).length) :=
  json_files_accumulate [["q1"], ["q2"]] 1 (by decide)

/-- Claim C10: with `save_format = jsonl`, `main` raises a NameError on the
first problem of the first module — the record dict `dataset_dict` is never
defined before `dataset_dict.update(...)` is evaluated — so no jsonl line is
ever written (the opened file stays empty). -/
theorem jsonl_name_error (gen : ℕ → String × String) (perModule : ℕ)
    (h : 1 ≤ perModule) :
    jsonlLoop gen perModule 0 (mainJsonlEnv perModule)
      = ([], some "NameError: name dataset_dict is not defined") := by
  cases perModule with
  | zero => omega
  | succ n =>
    simp [jsonlLoop, lookupName, mainJsonlEnv]

/-- Witness for claim C10 at a concrete run: one problem requested. -/
theorem jsonl_name_error_witness :
    jsonlLoop (fun _ => ("q", "a")) 1 0 (mainJsonlEnv 1)
      = ([], some "NameError: name dataset_dict is not defined") :=
  jsonl_name_error (fun _ => ("q", "a")) 1 (by decide)

end MathematicsDataset
